import Mathlib

/-!
Shallow embedding of `src/stack/integer/mod.rs` from the ton-labs-vm
repository: the bounded signed integer value type (`IntegerData`) of the
TVM stack, its NaN handling, the checked/quiet behavior policy, the bit
size and overflow primitives, and the generic operation framework.

Modelling conventions:
  * `num::BigInt` is modelled as `ℤ`; `BigUint` magnitudes as `ℕ`.
  * `BigInt::bits()` (bit length of the absolute value) is `Nat.size` of
    `Int.natAbs`.
  * Rust functions that can panic are modelled with an `Option` layer:
    `none` is a panic, `some r` is a normal return of `r`.
  * Fallible functions returning `Result<T>` are modelled as
    `Except VMError T`.
  * 32-bit machine words are `ℕ` with arithmetic reduced `% 2 ^ 32`;
    bitwise NOT of a `u32` word `d` is `2 ^ 32 - 1 - d`.
-/

/-- The two error kinds raised by the behavior-policy hooks
(`ExceptionCode::IntegerOverflow` / `NaNOperand` on the Rust side). -/
inductive VMError where
  | NaNOperand
  | IntegerOverflow
  deriving DecidableEq, Repr

/-- The compile-time behavior policy `OperationBehavior`, with its two
implementations `Signaling` (checked) and `Quiet`.  The Rust side selects
the policy as a type parameter; here it is a plain value. -/
inductive Behavior where
  | Checked
  | Quiet
  deriving DecidableEq, Repr

/-- Modelled from the spec: the `on_nan_parameter` hook of the behavior
module (`src/stack/integer/behavior.rs`, not part of the excerpt).
`Checked` fails with a `NaNOperand` error; `Quiet` is a no-op success. -/
def on_nan_parameter : Behavior → Except VMError Unit
  | Behavior.Checked => Except.error VMError.NaNOperand
  | Behavior.Quiet => Except.ok ()

/-- Modelled from the spec: the `on_integer_overflow` hook of the behavior
module (`src/stack/integer/behavior.rs`, not part of the excerpt).
`Checked` fails with an `IntegerOverflow` error; `Quiet` is a no-op
success. -/
def on_integer_overflow : Behavior → Except VMError Unit
  | Behavior.Checked => Except.error VMError.IntegerOverflow
  | Behavior.Quiet => Except.ok ()

/-- Rust `enum IntegerValue { NaN, Value(Int) }`. -/
inductive IntegerValue where
  | NaN
  | Value (v : ℤ)
  deriving DecidableEq, Repr

/-- Rust `IntegerValue::unwrap`: panics (`none`) on `NaN`. -/
def IntegerValue.unwrap : IntegerValue → Option ℤ
  | IntegerValue.NaN => none
  | IntegerValue.Value x => some x

/-- Rust `pub struct IntegerData { value: IntegerValue }`. -/
structure IntegerData where
  value : IntegerValue
  deriving DecidableEq, Repr

/-- Rust `IntegerData::zero()`. -/
def IntegerData.zero : IntegerData := ⟨IntegerValue.Value 0⟩

/-- Rust `IntegerData::new()`: just a wrapper for `zero()`. -/
def IntegerData.new : IntegerData := IntegerData.zero

/-- Rust `IntegerData::one()`. -/
def IntegerData.one : IntegerData := ⟨IntegerValue.Value 1⟩

/-- Rust `IntegerData::minus_one()`. -/
def IntegerData.minus_one : IntegerData := ⟨IntegerValue.Value (-1)⟩

/-- Rust `IntegerData::nan()`. -/
def IntegerData.nan : IntegerData := ⟨IntegerValue.NaN⟩

/-- Rust `IntegerData::withdraw(&mut self)`: `mem::replace(self, IntegerData::new())`.
The mutable slot is modelled by returning the pair
(returned value, new slot contents). -/
def IntegerData.withdraw (self : IntegerData) : IntegerData × IntegerData :=
  (self, IntegerData.new)

/-- Rust `IntegerData::is_nan()`. -/
def IntegerData.is_nan (self : IntegerData) : Bool :=
  decide (self.value = IntegerValue.NaN)

/-- Rust `IntegerData::is_neg()`: `false` for NaN, else `value.is_negative()`. -/
def IntegerData.is_neg (self : IntegerData) : Bool :=
  match self.value with
  | IntegerValue.NaN => false
  | IntegerValue.Value value => decide (value < 0)

/-- Rust `IntegerData::is_zero()`: `false` for NaN, else `value.is_zero()`. -/
def IntegerData.is_zero (self : IntegerData) : Bool :=
  match self.value with
  | IntegerValue.NaN => false
  | IntegerValue.Value value => decide (value = 0)

/-- Rust `BigInt::bits()`: number of bits in the absolute value. -/
def bits (value : ℤ) : ℕ := value.natAbs.size

/-- Rust `bitsize(value)`: fewest bits necessary to express the signed
`value` in two's complement. -/
def utils.bitsize (value : ℤ) : ℕ :=
  if value = 0 ∨ value = -1 then 1
  else
    let res := bits value
    if 0 < value then res + 1
    else
      -- modpow2 = |value| & (|value| - 1)
      let modpow2 := value.natAbs &&& (value.natAbs - 1)
      if modpow2 = 0 then res else res + 1

/-- Rust `utils::check_overflow(value)`: true iff the value fits into
`IntegerData`, i.e. `bitsize(value) < 258`. -/
def utils.check_overflow (value : ℤ) : Bool := decide (utils.bitsize value < 258)

/-- Rust `utils::process_value(value, call_on_valid)`: panics (`none`) on NaN,
otherwise applies the callback to the raw integer. -/
def utils.process_value {R : Type} (value : IntegerData) (call_on_valid : ℤ → R) :
    Option R :=
  match value.value with
  | IntegerValue.NaN => none
  | IntegerValue.Value v => some (call_on_valid v)

/-- Rust `IntegerData::bitsize()`: `process_value(self, |value| bitsize(value))`. -/
def IntegerData.bitsize (self : IntegerData) : Option ℕ :=
  utils.process_value self (fun value => utils.bitsize value)

/-- Rust `IntegerData::ubitsize()`: `process_value(self, |value| value.bits())`
(the `debug_assert!(!value.is_negative())` is compiled out in release
builds and is not part of the returned value). -/
def IntegerData.ubitsize (self : IntegerData) : Option ℕ :=
  utils.process_value self (fun value => bits value)

/-- Rust `IntegerData::fits_in(bits)`: `self.bitsize() <= bits` (panics on NaN
because `bitsize` does). -/
def IntegerData.fits_in (self : IntegerData) (n : ℕ) : Option Bool :=
  self.bitsize.map (fun b => decide (b ≤ n))

/-- Rust `IntegerData::ufits_in(bits)`: `!self.is_neg() && self.ubitsize() <= bits`;
`&&` short-circuits, so a negative value returns `false` without calling
`ubitsize`, while a NaN (for which `is_neg` is `false`) reaches `ubitsize`
and panics. -/
def IntegerData.ufits_in (self : IntegerData) (n : ℕ) : Option Bool :=
  if self.is_neg then some false
  else self.ubitsize.map (fun b => decide (b ≤ n))

/-- Rust `IntegerData::cmp::<T>(&self, other) -> Result<Option<Ordering>>`. -/
def IntegerData.cmp (T : Behavior) (self other : IntegerData) :
    Option (Except VMError (Option Ordering)) :=
  if self.is_nan || other.is_nan then
    some (do
      on_nan_parameter T
      pure none)
  else
    match self.value.unwrap, other.value.unwrap with
    | some x, some y => some (Except.ok (some (compare x y)))
    | _, _ => none

/-- Modelled from the spec: `IntegerData::from(value: Int) -> Result<IntegerData>`
lives in the conversion module, which is not part of the excerpt; per the
spec the conversion module "must route through the same overflow check",
so it succeeds exactly when `utils.check_overflow` holds and fails with
`IntegerOverflow` otherwise. -/
def IntegerData.fromInt (value : ℤ) : Except VMError IntegerData :=
  if utils.check_overflow value then Except.ok ⟨IntegerValue.Value value⟩
  else Except.error VMError.IntegerOverflow

/-- Rust `Result::unwrap()`: panics (`none`) on `Err`. -/
def unwrapRes {ε α : Type} : Except ε α → Option α
  | Except.ok a => some a
  | Except.error _ => none

/-- The `extract_value!` substitution: on a NaN operand runs `on_nan_parameter!(T)?`
and early-returns `Ok(nan_constructor())`; otherwise continues with the raw
integer.  The early return is modelled by a continuation `k`. -/
def utils.extract_value {R : Type} (T : Behavior) (v : IntegerData)
    (nan_constructor : Unit → R) (k : ℤ → Except VMError R) :
    Except VMError R :=
  match v.value with
  | IntegerValue.NaN => do
      on_nan_parameter T
      pure (nan_constructor ())
  | IntegerValue.Value x => k x

/-- Rust `utils::unary_op`: checks lhs for NaN, unwraps it, calls the callback
and hands the raw result to the result processor. -/
def utils.unary_op {RInt R : Type} (T : Behavior) (lhs : IntegerData)
    (callback : ℤ → RInt) (nan_constructor : Unit → R)
    (result_processor : RInt → (Unit → R) → Except VMError R) :
    Except VMError R :=
  utils.extract_value T lhs nan_constructor fun lhs =>
    result_processor (callback lhs) nan_constructor

/-- Rust `utils::binary_op`: checks lhs and rhs for NaN, unwraps them, calls the
callback and hands the raw result to the result processor. -/
def utils.binary_op {RInt R : Type} (T : Behavior) (lhs rhs : IntegerData)
    (callback : ℤ → ℤ → RInt) (nan_constructor : Unit → R)
    (result_processor : RInt → (Unit → R) → Except VMError R) :
    Except VMError R :=
  utils.extract_value T lhs nan_constructor fun lhs =>
    utils.extract_value T rhs nan_constructor fun rhs =>
      result_processor (callback lhs rhs) nan_constructor

/-- Rust `utils::process_single_result`: wraps one raw integer, invoking
`on_integer_overflow!(T)` and substituting `nan_constructor()` when the
conversion fails. -/
def utils.process_single_result (T : Behavior) (result : ℤ)
    (nan_constructor : Unit → IntegerData) : Except VMError IntegerData :=
  match IntegerData.fromInt result with
  | Except.ok r => Except.ok r
  | Except.error _ => do
      on_integer_overflow T
      pure (nan_constructor ())

/-- Rust `utils::process_double_result`: wraps a pair of raw integers.  Only the
first component's conversion drives the overflow handling; the second is
unwrapped with `Result::unwrap()`, which panics (`none`) if it fails. -/
def utils.process_double_result (T : Behavior) (result : ℤ × ℤ)
    (nan_constructor : Unit → IntegerData × IntegerData) :
    Option (Except VMError (IntegerData × IntegerData)) :=
  let (r1, r2) := result
  match IntegerData.fromInt r1 with
  | Except.ok r1 =>
      match unwrapRes (IntegerData.fromInt r2) with
      | some r2 => some (Except.ok (r1, r2))
      | none => none
  | Except.error _ =>
      some (do
        on_integer_overflow T
        pure (nan_constructor ()))

/-- Rust `utils::construct_single_nan()`. -/
def utils.construct_single_nan : Unit → IntegerData :=
  fun _ => IntegerData.nan

/-- Rust `utils::construct_double_nan()`. -/
def utils.construct_double_nan : Unit → IntegerData × IntegerData :=
  fun _ => (utils.construct_single_nan (), utils.construct_single_nan ())

/-- Rust `u32::not` on a word below `2 ^ 32`: bitwise complement. -/
def utils.wordNot (d : ℕ) : ℕ := 2 ^ 32 - 1 - d

/-- One step of `utils::twos_complement`: invert the word, and while the
carry is live add 1 modulo `2 ^ 32`, keeping the carry iff the word wrapped
to zero. -/
def utils.twosComplementAux : Bool → List ℕ → List ℕ
  | _, [] => []
  | carry, d :: ds =>
    if carry then
      let d1 := (utils.wordNot d + 1) % 2 ^ 32
      d1 :: utils.twosComplementAux (decide (d1 = 0)) ds
    else
      utils.wordNot d :: utils.twosComplementAux false ds

/-- Rust `utils::twos_complement(digits)`: in-place two's-complement negation of
a little-endian `u32` digit sequence, modelled as a list transformation.
The carry starts live (the "+1" of two's complement). -/
def utils.twos_complement (digits : List ℕ) : List ℕ :=
  utils.twosComplementAux true digits


/-! ## Helper lemmas -/

/-- Characterization of `Nat.size` on an interval between powers of two. -/
theorem size_eq_succ {n k : ℕ} (h1 : 2 ^ k ≤ n) (h2 : n < 2 ^ (k + 1)) :
    n.size = k + 1 :=
  le_antisymm (Nat.size_le.2 h2) (Nat.lt_size.2 h1)

/-- A number between consecutive powers of two has its top bit set. -/
theorem testBit_true_of_between {m k : ℕ} (h1 : 2 ^ k ≤ m) (h2 : m < 2 ^ (k + 1)) :
    m.testBit k = true := by
  rw [Nat.testBit_to_div_mod]
  have hdiv : m / 2 ^ k = 1 := by
    have hlt : m / 2 ^ k < 2 := Nat.div_lt_of_lt_mul (by rw [pow_succ] at h2; omega)
    have hge : 1 ≤ m / 2 ^ k := (Nat.one_le_div_iff (Nat.pos_pow_of_pos k (by norm_num))).2 h1
    omega
  simp [hdiv]

/-- The `n & (n - 1) == 0` trick detects exactly the powers of two (on
positive `n`); this justifies the `modpow2` test inside `bitsize`. -/
theorem land_pred_eq_zero_iff {n : ℕ} (hn : 0 < n) :
    n &&& (n - 1) = 0 ↔ ∃ k, n = 2 ^ k := by
  constructor
  · intro h
    by_contra hnp
    push_neg at hnp
    set k := Nat.log2 n with hk
    have h1 : 2 ^ k ≤ n := Nat.log2_self_le hn.ne'
    have h2 : n < 2 ^ (k + 1) := Nat.lt_log2_self
    have hne : n ≠ 2 ^ k := fun he => hnp k he
    have h1' : 2 ^ k ≤ n - 1 := by omega
    have h2' : n - 1 < 2 ^ (k + 1) := by omega
    have hb : (n &&& (n - 1)).testBit k = true := by
      rw [Nat.testBit_land, testBit_true_of_between h1 h2, testBit_true_of_between h1' h2']
      rfl
    rw [h] at hb
    simp [Nat.zero_testBit] at hb
  · rintro ⟨k, rfl⟩
    apply Nat.eq_of_testBit_eq
    intro i
    rw [Nat.testBit_land, Nat.testBit_two_pow, Nat.testBit_two_pow_sub_one, Nat.zero_testBit]
    by_cases hik : k = i <;> simp [hik]

/-! ## Claims -/

/-- C5: `check_overflow(value)` returns true if and only if
`bitsize(value) < 258`. -/
theorem check_overflow_iff_bitsize_lt (value : ℤ) :
    utils.check_overflow value = true ↔ utils.bitsize value < 258 := by
  simp [utils.check_overflow]

/-- C6: `IntegerData::bitsize()` and `IntegerData::ubitsize()` panic on a
NaN value (modelled as `none`); on a non-NaN value the fatal branch is not
taken and they return the signed bit-size, resp. the raw magnitude bit
count. -/
theorem bitsize_ubitsize_nan_fatal :
    (∀ d : IntegerData, d.is_nan = true → d.bitsize = none ∧ d.ubitsize = none) ∧
    (∀ v : ℤ, (IntegerData.mk (IntegerValue.Value v)).bitsize = some (utils.bitsize v) ∧
      (IntegerData.mk (IntegerValue.Value v)).ubitsize = some (bits v)) := by
  constructor
  · intro d hd
    have hv : d.value = IntegerValue.NaN := by
      simpa [IntegerData.is_nan] using hd
    exact ⟨by simp [IntegerData.bitsize, utils.process_value, hv],
      by simp [IntegerData.ubitsize, utils.process_value, hv]⟩
  · intro v
    exact ⟨rfl, rfl⟩

/-- C6 witness: the fatal branch at the concrete NaN value. -/
theorem bitsize_ubitsize_nan_fatal_holds :
    IntegerData.nan.bitsize = none ∧ IntegerData.nan.ubitsize = none :=
  bitsize_ubitsize_nan_fatal.1 IntegerData.nan rfl

/-- C7: `fits_in` and `ufits_in` on a NaN value panic for every bit count
`n`: `fits_in` delegates to `bitsize`, and `ufits_in` — since `is_neg` is
`false` on NaN — proceeds to `ubitsize`, which panics. -/
theorem fits_in_ufits_in_nan_fatal (n : ℕ) :
    IntegerData.nan.is_neg = false ∧
    IntegerData.nan.fits_in n = none ∧
    IntegerData.nan.ufits_in n = none :=
  ⟨rfl, rfl, rfl⟩

/-- C8: `withdraw` returns the held value `v` (NaN included) and leaves the
slot holding `zero()`; a second `withdraw` on the same slot returns
`zero()` and the slot remains `zero()`. -/
theorem withdraw_returns_value_and_resets (v : IntegerData) :
    v.withdraw.1 = v ∧ v.withdraw.2 = IntegerData.zero ∧
    v.withdraw.2.withdraw.1 = IntegerData.zero ∧
    v.withdraw.2.withdraw.2 = IntegerData.zero :=
  ⟨rfl, rfl, rfl, rfl⟩

/-- C10: on a non-NaN value, `ufits_in(n)` is true iff the value is
non-negative and its raw magnitude bit count is at most `n`; in particular
it is false for every negative value. -/
theorem ufits_in_characterization (v : ℤ) (n : ℕ) :
    ((IntegerData.mk (IntegerValue.Value v)).ufits_in n = some true ↔
      0 ≤ v ∧ bits v ≤ n) ∧
    (v < 0 → (IntegerData.mk (IntegerValue.Value v)).ufits_in n = some false) := by
  constructor
  · by_cases hv : v < 0
    · simp [IntegerData.ufits_in, IntegerData.is_neg, hv]
    · simp [IntegerData.ufits_in, IntegerData.is_neg, IntegerData.ubitsize,
        utils.process_value, hv]
      omega
  · intro hv
    simp [IntegerData.ufits_in, IntegerData.is_neg, hv]

/-- C10 witness: a negative value never u-fits. -/
theorem ufits_in_neg_value_holds :
    (IntegerData.mk (IntegerValue.Value (-5))).ufits_in 10 = some false :=
  (ufits_in_characterization (-5) 10).2 (by decide)

/-- C4: `cmp` with a NaN operand fails with `NaNOperand` under `Checked`
and returns `Ok(None)` under `Quiet`; on two numbers it returns
`Ok(Some(ordering))` of the two magnitudes. -/
theorem cmp_policy_behavior (a b : IntegerData) :
    ((a.is_nan = true ∨ b.is_nan = true) →
      IntegerData.cmp Behavior.Checked a b = some (Except.error VMError.NaNOperand) ∧
      IntegerData.cmp Behavior.Quiet a b = some (Except.ok none)) ∧
    (∀ (T : Behavior) (x y : ℤ),
      IntegerData.cmp T (IntegerData.mk (IntegerValue.Value x))
          (IntegerData.mk (IntegerValue.Value y)) =
        some (Except.ok (some (compare x y)))) := by
  constructor
  · intro h
    have hor : (a.is_nan || b.is_nan) = true := by
      rcases h with h | h <;> simp [h]
    constructor <;> simp [IntegerData.cmp, hor, on_nan_parameter]
  · intro T x y
    rfl

/-- C4 witness: concrete NaN comparison under the checked policy. -/
theorem cmp_policy_behavior_holds :
    IntegerData.cmp Behavior.Checked IntegerData.nan IntegerData.zero =
      some (Except.error VMError.NaNOperand) :=
  ((cmp_policy_behavior IntegerData.nan IntegerData.zero).1 (Or.inl rfl)).1

/-- C3: in `binary_op` and `unary_op`, a NaN operand fails with
`NaNOperand` under `Checked` and short-circuits to
`Ok(nan_constructor())` under `Quiet` — for every callback and result
processor, so the compute callback is never consulted; with no NaN
operand the callback runs on the raw magnitudes and its result is handed
to the result processor. -/
theorem generic_op_nan_policy {RInt R : Type} (T : Behavior)
    (lhs rhs : IntegerData) (f : ℤ → ℤ → RInt) (g : ℤ → RInt)
    (nan_constructor : Unit → R)
    (result_processor : RInt → (Unit → R) → Except VMError R) :
    ((lhs.is_nan = true ∨ rhs.is_nan = true) →
      utils.binary_op Behavior.Checked lhs rhs f nan_constructor result_processor =
        Except.error VMError.NaNOperand ∧
      utils.binary_op Behavior.Quiet lhs rhs f nan_constructor result_processor =
        Except.ok (nan_constructor ())) ∧
    (∀ x y : ℤ,
      utils.binary_op T (IntegerData.mk (IntegerValue.Value x))
          (IntegerData.mk (IntegerValue.Value y)) f nan_constructor result_processor =
        result_processor (f x y) nan_constructor) ∧
    (lhs.is_nan = true →
      utils.unary_op Behavior.Checked lhs g nan_constructor result_processor =
        Except.error VMError.NaNOperand ∧
      utils.unary_op Behavior.Quiet lhs g nan_constructor result_processor =
        Except.ok (nan_constructor ())) ∧
    (∀ x : ℤ,
      utils.unary_op T (IntegerData.mk (IntegerValue.Value x)) g nan_constructor
          result_processor =
        result_processor (g x) nan_constructor) := by
  obtain ⟨lv⟩ := lhs
  obtain ⟨rv⟩ := rhs
  refine ⟨?_, fun x y => rfl, ?_, fun x => rfl⟩
  · intro h
    cases lv with
    | NaN => exact ⟨rfl, rfl⟩
    | Value x =>
      cases rv with
      | NaN => exact ⟨rfl, rfl⟩
      | Value y => simp [IntegerData.is_nan] at h
  · intro h
    cases lv with
    | NaN => exact ⟨rfl, rfl⟩
    | Value x => simp [IntegerData.is_nan] at h

/-- C3 witness: a NaN lhs short-circuits a quiet binary operation to the
NaN constructor's result without consulting the callback. -/
theorem generic_op_nan_policy_holds :
    utils.binary_op Behavior.Quiet IntegerData.nan IntegerData.zero
        (fun x y => x + y) utils.construct_single_nan
        (utils.process_single_result Behavior.Quiet) =
      Except.ok (utils.construct_single_nan ()) :=
  ((generic_op_nan_policy Behavior.Quiet IntegerData.nan IntegerData.zero
      (fun x y => x + y) (fun x => x) utils.construct_single_nan
      (utils.process_single_result Behavior.Quiet)).1 (Or.inl rfl)).2

/-- Concrete size computation used by the C2 theorems. -/
theorem size_two_eq : (2 : ℕ).size = 2 :=
  size_eq_succ (by norm_num) (by norm_num)

/-- Concrete size computation used by the C2 theorems. -/
theorem size_three_eq : (3 : ℕ).size = 2 :=
  size_eq_succ (k := 1) (by norm_num) (by norm_num)

/-- Evaluation of `bitsize` at `-2`: the magnitude 2 is a power of two, so
the result is the magnitude bit length `size 2 = 2`. -/
theorem bitsize_neg_two : utils.bitsize (-2) = 2 := by
  have hland : (2 : ℕ) &&& (2 - 1) = 0 := by decide
  simp [utils.bitsize, bits, hland, size_two_eq]

/-- C2 counterexample: the claim asserts `bitsize(-2) = 1`, but the code
returns the magnitude bit length of a negative power of two, which for
`-2` is `2`. -/
theorem bitsize_neg_two_cex :
    utils.bitsize (-2) = 2 ∧ ¬ utils.bitsize (-2) = 1 := by
  refine ⟨bitsize_neg_two, ?_⟩
  rw [bitsize_neg_two]
  norm_num

/-- C2 amended: `bitsize` follows the exact two's-complement rules of the
claim — except that `bitsize(-2)` is `2` (the magnitude bit length of 2),
not `1`. -/
theorem bitsize_rules (v : ℤ) :
    utils.bitsize 0 = 1 ∧ utils.bitsize (-1) = 1 ∧
    (0 < v → utils.bitsize v = bits v + 1) ∧
    (v < 0 → (∃ k, v.natAbs = 2 ^ k) → utils.bitsize v = bits v) ∧
    (v < 0 → ¬(∃ k, v.natAbs = 2 ^ k) → utils.bitsize v = bits v + 1) ∧
    utils.bitsize 1 = 2 ∧ utils.bitsize (-2) = 2 ∧
    utils.bitsize 3 = 3 ∧ utils.bitsize (-3) = 3 := by
  refine ⟨by simp [utils.bitsize], by simp [utils.bitsize], ?_, ?_, ?_, ?_,
    bitsize_neg_two, ?_, ?_⟩
  · intro hv
    have h0 : ¬(v = 0 ∨ v = -1) := by omega
    simp [utils.bitsize, h0, hv]
  · rintro hv ⟨k, hk⟩
    by_cases h1 : v = -1
    · subst h1
      simp [utils.bitsize, bits, Nat.size_one]
    · have h0 : ¬(v = 0 ∨ v = -1) := by omega
      have hp : ¬(0 < v) := by omega
      have hpos : 0 < v.natAbs := Int.natAbs_pos.2 (by omega)
      have hland : v.natAbs &&& (v.natAbs - 1) = 0 :=
        (land_pred_eq_zero_iff hpos).2 ⟨k, hk⟩
      simp [utils.bitsize, h0, hp, hland, bits]
  · intro hv hnp
    have h1 : v ≠ -1 := by
      rintro rfl
      exact hnp ⟨0, by simp⟩
    have h0 : ¬(v = 0 ∨ v = -1) := by omega
    have hp : ¬(0 < v) := by omega
    have hpos : 0 < v.natAbs := Int.natAbs_pos.2 (by omega)
    have hland : ¬(v.natAbs &&& (v.natAbs - 1) = 0) := fun h =>
      hnp ((land_pred_eq_zero_iff hpos).1 h)
    simp [utils.bitsize, h0, hp, hland, bits]
  · simp [utils.bitsize, bits, Nat.size_one]
  · have h0 : ¬((3 : ℤ) = 0 ∨ (3 : ℤ) = -1) := by norm_num
    simp [utils.bitsize, h0, bits, size_three_eq]
  · have h0 : ¬((-3 : ℤ) = 0 ∨ (-3 : ℤ) = -1) := by norm_num
    have hland : ¬((3 : ℕ) &&& (3 - 1) = 0) := by decide
    simp [utils.bitsize, h0, bits, hland, size_three_eq]

/-- C2 witness: the negative-power-of-two rule at `-4`. -/
theorem bitsize_rules_holds : utils.bitsize (-4) = bits (-4) :=
  (bitsize_rules (-4)).2.2.2.1 (by decide) ⟨2, by decide⟩


/-- Unfolding of one live-carry step of the two's-complement transform. -/
theorem twosComplementAux_true_cons (x : ℕ) (xs : List ℕ) :
    utils.twosComplementAux true (x :: xs) =
      ((utils.wordNot x + 1) % 2 ^ 32) ::
        utils.twosComplementAux (decide ((utils.wordNot x + 1) % 2 ^ 32 = 0)) xs :=
  rfl

/-- Unfolding of one dead-carry step of the two's-complement transform. -/
theorem twosComplementAux_false_cons (x : ℕ) (xs : List ℕ) :
    utils.twosComplementAux false (x :: xs) =
      utils.wordNot x :: utils.twosComplementAux false xs :=
  rfl

/-- Involution of the two's-complement transform, generalized over the
carry state: running the transform twice with the same initial carry
restores a buffer of in-range words. -/
theorem twosComplementAux_involutive (ds : List ℕ) :
    ∀ c : Bool, (∀ d ∈ ds, d < 2 ^ 32) →
      utils.twosComplementAux c (utils.twosComplementAux c ds) = ds := by
  induction ds with
  | nil => intro c _; cases c <;> rfl
  | cons d ds ih =>
    intro c h
    have hd : d < 2 ^ 32 := h d (by simp)
    have hds : ∀ x ∈ ds, x < 2 ^ 32 := fun x hx => h x (by simp [hx])
    cases c with
    | false =>
      rw [twosComplementAux_false_cons, twosComplementAux_false_cons]
      have hnn : utils.wordNot (utils.wordNot d) = d := by
        simp only [utils.wordNot]
        omega
      rw [hnn, ih false hds]
    | true =>
      by_cases hd0 : d = 0
      · subst hd0
        have hv : (utils.wordNot 0 + 1) % 2 ^ 32 = 0 := by
          simp only [utils.wordNot]
          omega
        rw [twosComplementAux_true_cons, hv, decide_eq_true rfl,
          twosComplementAux_true_cons, hv, decide_eq_true rfl, ih true hds]
      · have hv : (utils.wordNot d + 1) % 2 ^ 32 = 2 ^ 32 - d := by
          simp only [utils.wordNot]
          omega
        have hc : (decide (2 ^ 32 - d = 0)) = false :=
          decide_eq_false (by omega)
        have hv2 : (utils.wordNot (2 ^ 32 - d) + 1) % 2 ^ 32 = d := by
          simp only [utils.wordNot]
          omega
        rw [twosComplementAux_true_cons, hv, hc, twosComplementAux_true_cons, hv2,
          decide_eq_false hd0, ih false hds]

/-- C9: applying `twos_complement` twice to a buffer of 32-bit words
restores the original bit pattern, and the all-zero buffer is its own
two's-complement negation. -/
theorem twos_complement_self_inverse :
    (∀ ds : List ℕ, (∀ d ∈ ds, d < 2 ^ 32) →
      utils.twos_complement (utils.twos_complement ds) = ds) ∧
    (∀ n : ℕ, utils.twos_complement (List.replicate n 0) = List.replicate n 0) := by
  constructor
  · intro ds h
    exact twosComplementAux_involutive ds true h
  · intro n
    induction n with
    | zero => rfl
    | succ n ih =>
      have hv : (utils.wordNot 0 + 1) % 2 ^ 32 = 0 := by
        simp only [utils.wordNot]
        omega
      simp only [utils.twos_complement] at ih ⊢
      rw [List.replicate_succ, twosComplementAux_true_cons, hv, decide_eq_true rfl, ih]

/-- C9 witness: the involution at a concrete two-word buffer. -/
theorem twos_complement_self_inverse_holds :
    utils.twos_complement (utils.twos_complement [5, 7]) = [5, 7] :=
  twos_complement_self_inverse.1 [5, 7] (by decide)

/-- Signed bit size of a positive value: magnitude bit length plus one. -/
theorem bitsize_of_pos (v : ℤ) (hv : 0 < v) : utils.bitsize v = bits v + 1 := by
  have h0 : ¬(v = 0 ∨ v = -1) := by omega
  simp [utils.bitsize, h0, hv]

/-- Evaluation of `bitsize` at the 259-bit magnitude `2 ^ 258`. -/
theorem bitsize_two_pow_258 : utils.bitsize ((2 : ℤ) ^ 258) = 260 := by
  have hp : (0 : ℤ) < 2 ^ 258 := by positivity
  rw [bitsize_of_pos _ hp]
  have hna : ((2 : ℤ) ^ 258).natAbs = 2 ^ 258 := by
    simp [Int.natAbs_pow]
  rw [bits, hna, Nat.size_pow]

/-- Case analysis of `process_double_result` by the two overflow checks;
shared by the C1 theorems. -/
theorem process_double_result_cases (r1 r2 : ℤ)
    (nan_constructor : Unit → IntegerData × IntegerData) :
    (utils.check_overflow r1 = false →
      utils.process_double_result Behavior.Checked (r1, r2) nan_constructor =
        some (Except.error VMError.IntegerOverflow) ∧
      utils.process_double_result Behavior.Quiet (r1, r2) nan_constructor =
        some (Except.ok (nan_constructor ()))) ∧
    (utils.check_overflow r1 = true → utils.check_overflow r2 = true →
      ∀ T : Behavior, utils.process_double_result T (r1, r2) nan_constructor =
        some (Except.ok (⟨IntegerValue.Value r1⟩, ⟨IntegerValue.Value r2⟩))) ∧
    (utils.check_overflow r1 = true → utils.check_overflow r2 = false →
      ∀ T : Behavior, utils.process_double_result T (r1, r2) nan_constructor =
        none) := by
  refine ⟨fun h1 => ⟨?_, ?_⟩, fun h1 h2 T => ?_, fun h1 h2 T => ?_⟩
  · simp [utils.process_double_result, IntegerData.fromInt, h1, on_integer_overflow]
  · simp [utils.process_double_result, IntegerData.fromInt, h1, on_integer_overflow]
  · simp [utils.process_double_result, IntegerData.fromInt, h1, h2, unwrapRes]
  · simp [utils.process_double_result, IntegerData.fromInt, h1, h2, unwrapRes]

/-- C1 counterexample: with `r1 = 0` (which passes the overflow check) and
`r2 = 2 ^ 258` (which fails it), `process_double_result` does not return
`Ok` of two wrapped values — the second component's conversion is in fact
attempted, and its failure panics on `Result::unwrap` instead of being
policy-handled. -/
theorem process_double_result_panic_cex :
    utils.check_overflow 0 = true ∧
    utils.check_overflow ((2 : ℤ) ^ 258) = false ∧
    utils.process_double_result Behavior.Checked (0, (2 : ℤ) ^ 258)
      utils.construct_double_nan = none := by
  have hc0 : utils.check_overflow 0 = true := by decide
  have hc : utils.check_overflow ((2 : ℤ) ^ 258) = false := by
    simp [utils.check_overflow, bitsize_two_pow_258]
  exact ⟨hc0, hc,
    (process_double_result_cases 0 ((2 : ℤ) ^ 258) utils.construct_double_nan).2.2
      hc0 hc Behavior.Checked⟩

/-- C1 amended: `process_double_result` drives the policy handling from
the first component only: if `r1` fails the overflow check, `Checked`
fails with `IntegerOverflow` and `Quiet` yields the paired NaN, `r2` never
being examined; if `r1` passes, `r2` is wrapped through the same fallible
conversion, but its failure is a panic rather than a policy-handled
overflow: both values are returned as `Ok` when `r2` also fits, and the
function panics when `r2` overflows while `r1` does not. -/
theorem process_double_result_behavior (r1 r2 : ℤ)
    (nan_constructor : Unit → IntegerData × IntegerData) :
    (utils.check_overflow r1 = false →
      utils.process_double_result Behavior.Checked (r1, r2) nan_constructor =
        some (Except.error VMError.IntegerOverflow) ∧
      utils.process_double_result Behavior.Quiet (r1, r2) nan_constructor =
        some (Except.ok (nan_constructor ()))) ∧
    (utils.check_overflow r1 = true → utils.check_overflow r2 = true →
      ∀ T : Behavior, utils.process_double_result T (r1, r2) nan_constructor =
        some (Except.ok (⟨IntegerValue.Value r1⟩, ⟨IntegerValue.Value r2⟩))) ∧
    (utils.check_overflow r1 = true → utils.check_overflow r2 = false →
      ∀ T : Behavior, utils.process_double_result T (r1, r2) nan_constructor =
        none) :=
  process_double_result_cases r1 r2 nan_constructor

/-- C1 witness: both components fit, so both are wrapped and returned. -/
theorem process_double_result_behavior_holds :
    utils.process_double_result Behavior.Quiet (0, -1) utils.construct_double_nan =
      some (Except.ok (⟨IntegerValue.Value 0⟩, ⟨IntegerValue.Value (-1)⟩)) :=
  (process_double_result_behavior 0 (-1) utils.construct_double_nan).2.1
    (by decide) (by decide) Behavior.Quiet

/-- C5 witness: the overflow check evaluated at zero. -/
theorem check_overflow_iff_bitsize_lt_holds : utils.bitsize 0 < 258 :=
  (check_overflow_iff_bitsize_lt 0).1 (by decide)

/-- C7 witness: the fatal fits-in queries at a concrete bit count. -/
theorem fits_in_ufits_in_nan_fatal_holds :
    IntegerData.nan.is_neg = false ∧
    IntegerData.nan.fits_in 77 = none ∧
    IntegerData.nan.ufits_in 77 = none :=
  fits_in_ufits_in_nan_fatal 77

/-- C8 witness: withdrawing a slot that holds NaN. -/
theorem withdraw_returns_value_and_resets_holds :
    IntegerData.nan.withdraw.1 = IntegerData.nan ∧
    IntegerData.nan.withdraw.2 = IntegerData.zero ∧
    IntegerData.nan.withdraw.2.withdraw.1 = IntegerData.zero ∧
    IntegerData.nan.withdraw.2.withdraw.2 = IntegerData.zero :=
  withdraw_returns_value_and_resets IntegerData.nan
